import Mathlib

/-!
# mupdf-gtk.c : paging core, pointer overlay and pixel buffer

A shallow embedding of `src/mupdf-gtk.c`.

* C pointers are natural numbers, `0` being `NULL`; a `memset` to zero is the
  all-zero record.
* C `int`s are `Int`.  C `float`/`double` values are only carried around by this
  file (all arithmetic on them happens inside MuPDF and cairo), they are held
  as rationals.
* `Page **pages` is a list (the `calloc`ed chapter table) of optional lists
  (`none` is a `NULL` chapter entry, `some tbl` an allocated table of `Page`
  records).  An access outside an allocated array has no meaning in C; the
  embedding gives it the outcome `Outcome.undefined`.
* MuPDF, cairo and `calloc` are not part of the program.  They are taken as an
  environment `Env` of oracles; `none` is an `fz_throw`.
* `mupdf-gtk.h` is not among the sources: `Page`, `DocInfo` and `Client` carry
  the fields that `mupdf-gtk.c` reads and writes, and the sizes of the two
  character buffers of `DocInfo` are taken as a parameter `Header`.
* `fz_transform_page` and `fz_transform_rect` are MuPDF functions.  `load_page`
  calls them through `Env`; what they compute is modelled separately, from
  MuPDF's documentation, in exact rational arithmetic.
-/

namespace MupdfGtk

/-- A C pointer; `0` is `NULL`. -/
abbrev Ptr := Nat

/-- A C `float` or `double` value, carried but never computed on here. -/
abbrev cfloat := ℚ

/-- MuPDF `fz_location`: a chapter number and a page number, both C `int`. -/
structure fz_location where
  chapter : Int
  page : Int
deriving DecidableEq

/-- MuPDF `fz_rect`. -/
structure fz_rect where
  x0 : cfloat
  y0 : cfloat
  x1 : cfloat
  y1 : cfloat
deriving DecidableEq

/-- MuPDF `fz_matrix`. -/
structure fz_matrix where
  a : cfloat
  b : cfloat
  c : cfloat
  d : cfloat
  e : cfloat
  f : cfloat
deriving DecidableEq

/-- The `Page` record: the fields `load_page` and `drop_page` touch. -/
structure Page where
  page : Ptr
  page_text : Ptr
  seps : Ptr
  links : Ptr
  display_list : Ptr
  page_bounds : fz_rect
  draw_page_ctm : fz_matrix
  draw_page_bounds : fz_rect
deriving DecidableEq

/-- A `Page` after `memset(page, 0, sizeof(*page))`, also what `calloc` hands out. -/
def Page.zero : Page :=
  { page := 0, page_text := 0, seps := 0, links := 0, display_list := 0,
    page_bounds := ⟨0, 0, 0, 0⟩,
    draw_page_ctm := ⟨0, 0, 0, 0, 0, 0⟩,
    draw_page_bounds := ⟨0, 0, 0, 0⟩ }

/-- The `DocInfo` record. -/
structure DocInfo where
  filename : String
  accel : String
  doc : Ptr
  location : fz_location
  colorspace : Ptr
  zoom : cfloat
  rotate : cfloat
  chapter_count : Int
  pages : List (Option (List Page))
  page_count_for_chapter : List Int
deriving DecidableEq

/-- A cairo image surface: its size and the address of its storage. -/
structure Surface where
  width : Int
  height : Int
  data : Ptr
deriving DecidableEq

/-- The `Client` record.  `image_surf = none` stands for "no surface yet". -/
structure Client where
  doci : DocInfo
  image_surf : Option Surface
  has_mouse_event : Bool
  mouse_event_x : cfloat
  mouse_event_y : cfloat
  mouse_event_button : Nat
deriving DecidableEq

/-- A `GdkRectangle` allocation: the fields `allocate_pixmap` reads. -/
structure GdkRectangle where
  width : Int
  height : Int
deriving DecidableEq

/-- The calls the properties below speak about, with their arguments: the
calls into MuPDF, cairo and GTK, and the program's own call of `drop_page`, whose
pointer argument is given as the chapter and page of the slot it points at. -/
inductive Event where
  | drop_page (chapter : Int) (page : Int)
  | fz_drop_stext_page (p : Ptr)
  | fz_drop_separations (p : Ptr)
  | fz_drop_link (p : Ptr)
  | fz_drop_page (p : Ptr)
  | fz_drop_display_list (p : Ptr)
  | fz_load_chapter_page (chapter : Int) (number : Int)
  | cairo_surface_destroy (s : Option Surface)
  | cairo_image_surface_create (width : Int) (height : Int)
  | fz_clear_pixmap_with_value (value : Nat)
  | fz_run_page (page : Ptr) (ctm : fz_matrix)
  | cairo_paint (s : Surface)
  | gtk_render_background (width : Int) (height : Int)
  | cairo_arc (xc : cfloat) (yc : cfloat) (radius : cfloat)
  | cairo_fill
deriving DecidableEq

/-- How a call ends: it returns, an `fz_throw` leaves it (with the memory as it
is at that moment), or it makes an access C gives no meaning to.  The first two
carry the calls made on the way. -/
inductive Outcome (σ : Type) where
  | returned (trace : List Event) (s : σ)
  | thrown (trace : List Event) (s : σ)
  | undefined
deriving DecidableEq

/-- What `mupdf-gtk.h` fixes and `mupdf-gtk.c` relies on: the sizes, in bytes, of
the character arrays `DocInfo.filename` and `DocInfo.accel`. -/
structure Header where
  filename_size : Nat
  accel_size : Nat
deriving DecidableEq

/-- How `load_doc` ends: it returns with the document set up, the process exits
with `EXIT_FAILURE`, or a `strcpy` writes past its buffer. -/
inductive Opened where
  | ready (doci : DocInfo)
  | exited
  | undefined
deriving DecidableEq

/-- The world outside the program: MuPDF, cairo and the allocator.
`none` is an `fz_throw`; `calloc n` tells whether a `calloc` of `n` elements
yields storage. -/
structure Env where
  open_accelerated_document : String → String → Option Ptr
  device_rgb : Ptr
  count_chapters : Ptr → Option Int
  calloc : Nat → Bool
  count_chapter_pages : Ptr → Int → Option Int
  load_chapter_page : Ptr → Int → Int → Option Ptr
  new_stext_page_from_page : Ptr → Option Ptr
  load_links : Ptr → Option Ptr
  bound_page : Ptr → Option fz_rect
  new_display_list : fz_rect → Option Ptr
  transform_page : fz_rect → cfloat → cfloat → fz_matrix
  transform_rect : fz_rect → fz_matrix → fz_rect
  new_pixmap_with_bbox_and_data : Ptr → Int → Int → Ptr → Option Ptr
  new_draw_device : Ptr → Option Ptr
  run_page : Ptr → Ptr → fz_matrix → Bool
  close_device : Ptr → Bool
  image_surface_create : Int → Int → Surface

/-- Reading `xs[i]` for a C `int` index: `none` outside the array. -/
def idx {α : Type} (xs : List α) (i : Int) : Option α :=
  if 0 ≤ i then xs[i.toNat]? else none

/-- Writing `xs[i] = v` for a C `int` index: `none` outside the array. -/
def upd {α : Type} (xs : List α) (i : Int) (v : α) : Option (List α) :=
  if 0 ≤ i ∧ i.toNat < xs.length then some (xs.set i.toNat v) else none

/-- The record at `&doci->pages[loc.chapter][loc.page]`, when that address lies
in an allocated table. -/
def slot (doci : DocInfo) (loc : fz_location) : Option Page :=
  match idx doci.pages loc.chapter with
  | some (some tbl) => idx tbl loc.page
  | _ => none

/-- Writing the record at `&doci->pages[loc.chapter][loc.page]`. -/
def store (doci : DocInfo) (loc : fz_location) (pg : Page) : DocInfo :=
  match idx doci.pages loc.chapter with
  | some (some tbl) =>
    { doci with pages := doci.pages.set loc.chapter.toNat (some (tbl.set loc.page.toNat pg)) }
  | _ => doci

/-- `calloc(nmemb, n)` with a C `int` count `n`: a negative count converts to a
huge `size_t` and yields `NULL`; otherwise the allocator decides. -/
def calloc {α : Type} (fz : Env) (n : Int) (zero : α) : Option (List α) :=
  if 0 ≤ n ∧ fz.calloc n.toNat = true then some (List.replicate n.toNat zero) else none

/-- Whether `strcpy(dst, src)` stays inside a destination of `size` bytes: the
bytes of `src` and the terminating zero byte are written. -/
def strcpy_fits (size : Nat) (src : String) : Prop :=
  src.utf8ByteSize + 1 ≤ size

instance (size : Nat) (src : String) : Decidable (strcpy_fits size src) :=
  inferInstanceAs (Decidable (src.utf8ByteSize + 1 ≤ size))

/-- `load_doc` (lines 99-135). -/
def load_doc (hdr : Header) (fz : Env) (filename : String)
    (accel_filename : Option String) : Opened :=
  -- 101-102: memset, strcpy
  if ¬ strcpy_fits hdr.filename_size filename then Opened.undefined else
  -- 103-104
  let accel_copy : Option String :=
    match accel_filename with
    | some a => if strcpy_fits hdr.accel_size a then some a else none
    | none => some ""
  match accel_copy with
  | none => Opened.undefined
  | some accel =>
    -- 106-112
    match fz.open_accelerated_document filename accel with
    | none => Opened.exited
    | some doc =>
      -- 118-119
      match fz.count_chapters doc with
      | none => Opened.exited
      | some chapter_count =>
        -- 120-122
        match calloc fz chapter_count (none : Option (List Page)) with
        | none => Opened.exited
        | some pages =>
          -- 123-126
          match calloc fz chapter_count (0 : Int) with
          | none => Opened.exited
          | some page_count_for_chapter =>
            Opened.ready
              { filename := filename
                accel := accel
                doc := doc
                location := ⟨0, 0⟩
                colorspace := fz.device_rgb
                zoom := 100
                rotate := 0
                chapter_count := chapter_count
                pages := pages
                page_count_for_chapter := page_count_for_chapter }

/-- `drop_page` (lines 137-144): the five drop calls, then the record zeroed. -/
def drop_page (page : Page) : List Event × Page :=
  ([Event.fz_drop_stext_page page.page_text,
    Event.fz_drop_separations page.seps,
    Event.fz_drop_link page.links,
    Event.fz_drop_page page.page,
    Event.fz_drop_display_list page.display_list],
   Page.zero)

/-- Lines 162-172 of `load_page`: the loads, each stored through `page` as soon
as its call returns.  `tr` holds the calls made so far. -/
def load_page_fill (fz : Env) (doci : DocInfo) (location : fz_location)
    (tr : List Event) : Outcome DocInfo :=
  -- 162-163
  match fz.load_chapter_page doci.doc location.chapter location.page with
  | none => Outcome.thrown tr doci
  | some p =>
    match slot doci location with
    | none => Outcome.undefined
    | some pg =>
      let tr := tr ++ [Event.fz_load_chapter_page location.chapter location.page]
      let pg := { pg with page := p }
      -- 164
      match fz.new_stext_page_from_page p with
      | none => Outcome.thrown tr (store doci location pg)
      | some text =>
        -- 165
        let pg := { pg with page_text := text, seps := 0 }
        -- 166
        match fz.load_links p with
        | none => Outcome.thrown tr (store doci location pg)
        | some links =>
          let pg := { pg with links := links }
          -- 167
          match fz.bound_page p with
          | none => Outcome.thrown tr (store doci location pg)
          | some bounds =>
            let pg := { pg with page_bounds := bounds }
            -- 168
            match fz.new_display_list bounds with
            | none => Outcome.thrown tr (store doci location pg)
            | some dl =>
              -- 169-172
              let ctm := fz.transform_page bounds doci.zoom doci.rotate
              let pg := { pg with display_list := dl, draw_page_ctm := ctm,
                                  draw_page_bounds := fz.transform_rect bounds ctm }
              Outcome.returned tr (store doci location pg)

/-- `load_page` (lines 146-173). -/
def load_page (fz : Env) (doci : DocInfo) (location : fz_location) : Outcome DocInfo :=
  -- 148
  let doci := { doci with location := location }
  -- 149
  match idx doci.pages location.chapter with
  | none => Outcome.undefined
  | some none =>
    -- 152-154
    match fz.count_chapter_pages doci.doc location.chapter with
    | none => Outcome.thrown [] doci
    | some n =>
      match upd doci.page_count_for_chapter location.chapter n with
      | none => Outcome.undefined
      | some counts =>
        let doci := { doci with page_count_for_chapter := counts }
        -- 155-156
        match idx doci.page_count_for_chapter doci.location.chapter with
        | none => Outcome.undefined
        | some m =>
          let doci := { doci with
            pages := doci.pages.set location.chapter.toNat (calloc fz m Page.zero) }
          -- 157, 162-172
          load_page_fill fz doci location []
  | some (some chapter_pages) =>
    -- 158-159: the address is never NULL, drop_page runs
    match idx chapter_pages location.page with
    | none => Outcome.undefined
    | some held =>
      let doci := store doci location (drop_page held).2
      -- 162-172
      load_page_fill fz doci location
        (Event.drop_page location.chapter location.page :: (drop_page held).1)

/-- Lines 27-28 of `draw_callback`: the record the draw looks up. -/
def active_page (doci : DocInfo) : Option Page :=
  slot doci doci.location

/-- A C `int` converted to `unsigned int` (32 bits). -/
def to_unsigned (n : Int) : Int :=
  n % 4294967296

/-- `draw_callback` (lines 11-51). -/
def draw_callback (fz : Env) (c : Client) : Outcome Client :=
  -- 13-18
  match c.image_surf with
  | none => Outcome.undefined
  | some surface =>
    -- 15-16: unsigned int width, height
    let width := to_unsigned surface.width
    let height := to_unsigned surface.height
    -- 20, 22-23: the fields of `whole_rect` are `int` again, the surface's own sizes
    match fz.new_pixmap_with_bbox_and_data c.doci.colorspace surface.width surface.height
        surface.data with
    | none => Outcome.thrown [] c
    | some pixmap =>
      -- 24
      let tr := [Event.fz_clear_pixmap_with_value 255]
      -- 26
      match fz.new_draw_device pixmap with
      | none => Outcome.thrown tr c
      | some draw_device =>
        -- 27-28
        match active_page c.doci with
        | none => Outcome.undefined
        | some page =>
          -- 29
          if fz.run_page page.page draw_device page.draw_page_ctm = true then
            let tr := tr ++ [Event.fz_run_page page.page page.draw_page_ctm]
            -- 31
            if fz.close_device draw_device = true then
              -- 32-35
              let tr := tr ++ [Event.cairo_paint surface]
              -- 37-48
              if c.has_mouse_event = true then
                Outcome.returned
                  (tr ++ [Event.gtk_render_background width height,
                          Event.cairo_arc c.mouse_event_x c.mouse_event_y 20,
                          Event.cairo_fill])
                  { c with has_mouse_event := false }
              else
                Outcome.returned tr c
            else Outcome.thrown tr c
          else Outcome.thrown tr c

/-- `allocate_pixmap` (lines 53-58). -/
def allocate_pixmap (fz : Env) (allocation : GdkRectangle) (c : Client) :
    List Event × Client :=
  ([Event.cairo_surface_destroy c.image_surf,
    Event.cairo_image_surface_create allocation.width allocation.height],
   { c with image_surf := some (fz.image_surface_create allocation.width allocation.height) })

/-- The record lines 162-172 leave at the slot when every call returns. -/
def loaded_page (fz : Env) (doci : DocInfo) (p text links : Ptr)
    (bounds : fz_rect) (dl : Ptr) : Page :=
  { page := p, page_text := text, seps := 0, links := links, page_bounds := bounds,
    display_list := dl,
    draw_page_ctm := fz.transform_page bounds doci.zoom doci.rotate,
    draw_page_bounds :=
      fz.transform_rect bounds (fz.transform_page bounds doci.zoom doci.rotate) }

/-! ## A concrete world: two chapters, of 3 and of 5 pages -/

/-- An engine for a document of two chapters, chapter 0 of 3 pages and chapter 1
of 5 pages, in which every call on an existing page returns. -/
def demo_env : Env :=
  { open_accelerated_document := fun _ _ => some 1
    device_rgb := 2
    count_chapters := fun _ => some 2
    calloc := fun _ => true
    count_chapter_pages := fun _ c => if c = 0 then some 3 else if c = 1 then some 5 else none
    load_chapter_page := fun _ c n =>
      if c = 0 ∧ 0 ≤ n ∧ n < 3 then some (100 + n.toNat)
      else if c = 1 ∧ 0 ≤ n ∧ n < 5 then some (200 + n.toNat)
      else none
    new_stext_page_from_page := fun p => some (1000 + p)
    load_links := fun p => some (2000 + p)
    bound_page := fun _ => some ⟨0, 0, 612, 792⟩
    new_display_list := fun _ => some 3000
    transform_page := fun _ zoom rotate => ⟨zoom, rotate, rotate, zoom, 0, 0⟩
    transform_rect := fun r _ => r
    new_pixmap_with_bbox_and_data := fun _ _ _ _ => some 4000
    new_draw_device := fun _ => some 5000
    run_page := fun _ _ _ => true
    close_device := fun _ => true
    image_surface_create := fun w h => ⟨w, h, 6000⟩ }

/-- The document `load_doc` yields in `demo_env`. -/
def demo_doc : DocInfo :=
  { filename := "./cancel.pdf"
    accel := ""
    doc := 1
    location := ⟨0, 0⟩
    colorspace := 2
    zoom := 100
    rotate := 0
    chapter_count := 2
    pages := [none, none]
    page_count_for_chapter := [0, 0] }

/-- The record `demo_env` loads for page `n` whose content handle is `p`. -/
def demo_page (p : Ptr) : Page :=
  { page := p, page_text := 1000 + p, seps := 0, links := 2000 + p, display_list := 3000,
    page_bounds := ⟨0, 0, 612, 792⟩,
    draw_page_ctm := ⟨100, 0, 0, 100, 0, 0⟩,
    draw_page_bounds := ⟨0, 0, 612, 792⟩ }

/-- `demo_doc` after `load_page` at chapter 0, page 1. -/
def demo_doc_0_1 : DocInfo :=
  { demo_doc with
    location := ⟨0, 1⟩
    pages := [some [Page.zero, demo_page 101, Page.zero], none]
    page_count_for_chapter := [3, 0] }

/-- `demo_doc` after `load_page` at chapter 1, page 0. -/
def demo_doc_1_0 : DocInfo :=
  { demo_doc with
    location := ⟨1, 0⟩
    pages := [none, some [demo_page 200, Page.zero, Page.zero, Page.zero, Page.zero]]
    page_count_for_chapter := [0, 5] }

/-- The engine of `demo_env`, except that building the text layer throws. -/
def demo_env_no_text : Env :=
  { demo_env with new_stext_page_from_page := fun _ => none }

/-- The size of the page table a chapter has, or will be given by `load_page`:
the length of its allocated table, else the count the engine reports. -/
def chapter_page_count (fz : Env) (doci : DocInfo) (chapter : Int) : Option Int :=
  match idx doci.pages chapter with
  | some (some tbl) => some (tbl.length : Int)
  | some none => fz.count_chapter_pages doci.doc chapter
  | none => none

/-- The part of the document a `load_page` at chapter `ch` leaves as it was:
the entries of every other chapter in both tables. -/
def same_elsewhere (ch : Int) (d d' : DocInfo) : Prop :=
  ∀ c, c ≠ ch → idx d'.pages c = idx d.pages c ∧
    idx d'.page_count_for_chapter c = idx d.page_count_for_chapter c

/-- A record none of whose five owned handles is set. -/
def Page.handles_absent (pg : Page) : Prop :=
  pg.page = 0 ∧ pg.page_text = 0 ∧ pg.seps = 0 ∧ pg.links = 0 ∧ pg.display_list = 0

/-- `demo_doc` after a `load_page` at chapter 1, page 2 in `demo_env_no_text`,
at the moment the text layer throws. -/
def demo_doc_1_2_thrown : DocInfo :=
  { demo_doc with
    location := ⟨1, 2⟩
    pages := [none, some [Page.zero, Page.zero, { Page.zero with page := 202 },
                          Page.zero, Page.zero]]
    page_count_for_chapter := [0, 5] }

/-- `demo_doc_0_1` after a second `load_page` at chapter 0, page 1, this one in
`demo_env_no_text`, at the moment the text layer throws. -/
def demo_doc_0_1_thrown : DocInfo :=
  { demo_doc_0_1 with
    pages := [some [Page.zero, { Page.zero with page := 101 }, Page.zero], none] }

/-- A caller making `load_page` calls one after the other on one document,
stopping at the first call that does not return. -/
def load_pages (fz : Env) : DocInfo → List fz_location → Outcome DocInfo
  | doci, [] => Outcome.returned [] doci
  | doci, L :: rest =>
    match load_page fz doci L with
    | Outcome.returned tr d1 =>
      match load_pages fz d1 rest with
      | Outcome.returned tr' d2 => Outcome.returned (tr ++ tr') d2
      | Outcome.thrown tr' d2 => Outcome.thrown (tr ++ tr') d2
      | Outcome.undefined => Outcome.undefined
    | Outcome.thrown tr d1 => Outcome.thrown tr d1
    | Outcome.undefined => Outcome.undefined

/-- `demo_doc` after `load_page` at chapter 0, page 1 and then at chapter 0,
page 2. -/
def demo_doc_0_2 : DocInfo :=
  { demo_doc with
    location := ⟨0, 2⟩
    pages := [some [Page.zero, demo_page 101, demo_page 102], none]
    page_count_for_chapter := [3, 0] }

/-- A client showing `demo_doc_0_1` on a 3 by 4 surface, no pointer event pending. -/
def demo_client : Client :=
  { doci := demo_doc_0_1
    image_surf := some ⟨3, 4, 6000⟩
    has_mouse_event := false
    mouse_event_x := 0
    mouse_event_y := 0
    mouse_event_button := 0 }

/-- How often `drop_page` was called on slot `s` in a trace. -/
def drop_runs (s : fz_location) (tr : List Event) : Nat :=
  tr.count (Event.drop_page s.chapter s.page)

/-- How often the engine was asked for the content of slot `s` in a trace. -/
def load_calls (s : fz_location) (tr : List Event) : Nat :=
  tr.count (Event.fz_load_chapter_page s.chapter s.page)

/-- Whether, in the sequence of calls `Ls` on `doci`, it is a load of slot `s`
that allocates the table of its chapter: the table is unallocated in `doci` and
the first call naming the chapter names `s`.  Counted as 1 or 0. -/
def table_allocations (doci : DocInfo) (Ls : List fz_location) (s : fz_location) : Nat :=
  if idx doci.pages s.chapter = some none ∧
      Ls.find? (fun L => decide (L.chapter = s.chapter)) = some s then 1 else 0

/-! ## MuPDF's page transform

`fz_transform_page` and `fz_transform_rect` are functions of the MuPDF library,
which is not part of the program's sources.  They are modelled here from MuPDF's
documentation (`mupdf/fitz/geometry.h`), in exact rational arithmetic: the
rounding of the float operations themselves is left out, the rounding to whole
pixels that the function performs is kept. -/

theorem idx_some {α : Type} {xs : List α} {i : Int} {v : α} (h : idx xs i = some v) :
    0 ≤ i ∧ i.toNat < xs.length ∧ xs[i.toNat]? = some v := by
  unfold idx at h
  split at h
  · rename_i h0
    refine ⟨h0, ?_, h⟩
    exact (List.getElem?_eq_some_iff.mp h).1
  · cases h

theorem idx_none_of_length_le {α : Type} (xs : List α) (i : Int)
    (h : (xs.length : Int) ≤ i) : idx xs i = none := by
  unfold idx
  split
  · apply List.getElem?_eq_none
    omega
  · rfl

theorem idx_set_self {α : Type} {xs : List α} {i : Int} {v0 : α} (v : α)
    (h : idx xs i = some v0) : idx (xs.set i.toNat v) i = some v := by
  obtain ⟨h0, hlt, _⟩ := idx_some h
  unfold idx
  rw [if_pos h0]
  simp [List.getElem?_set, hlt]

theorem idx_set_ne {α : Type} (xs : List α) {i j : Int} (v : α) (h0 : 0 ≤ i)
    (hne : j ≠ i) : idx (xs.set i.toNat v) j = idx xs j := by
  unfold idx
  split
  · rename_i hj
    have : i.toNat ≠ j.toNat := by omega
    simp [List.getElem?_set, this]
  · rfl

theorem upd_some {α : Type} {xs ys : List α} {i : Int} {v : α} (h : upd xs i v = some ys) :
    0 ≤ i ∧ i.toNat < xs.length ∧ ys = xs.set i.toNat v := by
  unfold upd at h
  split at h
  · rename_i hc
    exact ⟨hc.1, hc.2, (Option.some.inj h).symm⟩
  · cases h

theorem store_location (doci : DocInfo) (loc : fz_location) (pg : Page) :
    (store doci loc pg).location = doci.location := by
  unfold store
  split <;> rfl

theorem slot_store {doci : DocInfo} {loc : fz_location} {pg0 : Page} (pg : Page)
    (h : slot doci loc = some pg0) : slot (store doci loc pg) loc = some pg := by
  unfold slot at h
  split at h
  · rename_i tbl htbl
    unfold store slot
    simp only [htbl]
    rw [idx_set_self _ htbl]
    exact idx_set_self pg h
  · cases h


/-! ## What a returning `load_page` has done -/

theorem load_page_fill_returned {fz : Env} {doci d' : DocInfo} {L : fz_location}
    {tr0 tr : List Event} (h : load_page_fill fz doci L tr0 = Outcome.returned tr d') :
    ∃ pg0 p text links bounds dl,
      slot doci L = some pg0 ∧
      fz.load_chapter_page doci.doc L.chapter L.page = some p ∧
      fz.new_stext_page_from_page p = some text ∧
      fz.load_links p = some links ∧
      fz.bound_page p = some bounds ∧
      fz.new_display_list bounds = some dl ∧
      tr = tr0 ++ [Event.fz_load_chapter_page L.chapter L.page] ∧
      d' = store doci L (loaded_page fz doci p text links bounds dl) := by
  unfold load_page_fill at h
  split at h
  · cases h
  · rename_i p hp
    split at h
    · cases h
    · rename_i pg0 hpg0
      simp only at h
      split at h
      · cases h
      · rename_i text htext
        split at h
        · cases h
        · rename_i links hlinks
          split at h
          · cases h
          · rename_i bounds hbounds
            split at h
            · cases h
            · rename_i dl hdl
              injection h with h1 h2
              exact ⟨pg0, p, text, links, bounds, dl, hpg0, hp, htext, hlinks, hbounds, hdl,
                h1.symm, h2.symm⟩


theorem load_page_returned_fill {fz : Env} {doci d' : DocInfo} {L : fz_location}
    {tr : List Event} (h : load_page fz doci L = Outcome.returned tr d') :
    ∃ d1 tr0, d1.location = L ∧ d1.doc = doci.doc ∧ d1.zoom = doci.zoom ∧
      d1.rotate = doci.rotate ∧ load_page_fill fz d1 L tr0 = Outcome.returned tr d' := by
  unfold load_page at h
  simp only at h
  split at h
  · cases h
  · split at h
    · cases h
    · split at h
      · cases h
      · split at h
        · cases h
        · refine ⟨_, _, ?_, ?_, ?_, ?_, h⟩ <;> rfl
  · split at h
    · cases h
    · refine ⟨_, _, ?_, ?_, ?_, ?_, h⟩
      · rw [store_location]
      · unfold store; split <;> rfl
      · unfold store; split <;> rfl
      · unfold store; split <;> rfl

theorem load_page_fill_no_slot (fz : Env) {doci : DocInfo} {L : fz_location}
    (tr : List Event) (h : slot doci L = none) :
    (∀ p, fz.load_chapter_page doci.doc L.chapter L.page = some p →
      load_page_fill fz doci L tr = Outcome.undefined) ∧
    (fz.load_chapter_page doci.doc L.chapter L.page = none →
      load_page_fill fz doci L tr = Outcome.thrown tr doci) := by
  constructor
  · intro p hp
    unfold load_page_fill
    simp only [hp, h]
  · intro hp
    unfold load_page_fill
    simp only [hp]

theorem idx_replicate_none {α : Type} (n i : Int) (z : α) (h : n ≤ i) :
    idx (List.replicate n.toNat z) i = none := by
  unfold idx
  split
  · apply List.getElem?_eq_none
    rw [List.length_replicate]
    omega
  · rfl

theorem calloc_some {α : Type} {fz : Env} {n : Int} {z : α} {tbl : List α}
    (h : calloc fz n z = some tbl) : 0 ≤ n ∧ tbl = List.replicate n.toNat z := by
  unfold calloc at h
  split at h
  · rename_i hc
    exact ⟨hc.1, (Option.some.inj h).symm⟩
  · cases h

theorem idx_upd_self {α : Type} {xs : List α} {i : Int} {v0 : α} (v : α)
    (h : idx xs i = some v0) : upd xs i v = some (xs.set i.toNat v) := by
  obtain ⟨h0, hlt, _⟩ := idx_some h
  unfold upd
  rw [if_pos ⟨h0, hlt⟩]

theorem idx_of_lt {α : Type} (xs : List α) (i : Int) (h0 : 0 ≤ i)
    (hlt : i.toNat < xs.length) : idx xs i = some (xs.get ⟨i.toNat, hlt⟩) := by
  unfold idx
  rw [if_pos h0]
  exact List.getElem?_eq_getElem hlt

/-! ## What `load_page` leaves untouched -/

theorem load_page_fill_state {fz : Env} {doci d' : DocInfo} {L : fz_location}
    {tr0 tr : List Event}
    (h : load_page_fill fz doci L tr0 = Outcome.returned tr d' ∨
      load_page_fill fz doci L tr0 = Outcome.thrown tr d') :
    d' = doci ∨ ∃ pg, d' = store doci L pg := by
  unfold load_page_fill at h
  split at h
  · rcases h with h | h
    · cases h
    · injection h with _ h2
      exact Or.inl h2.symm
  · split at h
    · rcases h with h | h <;> cases h
    · simp only at h
      split at h
      · rcases h with h | h
        · cases h
        · injection h with _ h2
          exact Or.inr ⟨_, h2.symm⟩
      · split at h
        · rcases h with h | h
          · cases h
          · injection h with _ h2
            exact Or.inr ⟨_, h2.symm⟩
        · split at h
          · rcases h with h | h
            · cases h
            · injection h with _ h2
              exact Or.inr ⟨_, h2.symm⟩
          · split at h
            · rcases h with h | h
              · cases h
              · injection h with _ h2
                exact Or.inr ⟨_, h2.symm⟩
            · rcases h with h | h
              · injection h with _ h2
                exact Or.inr ⟨_, h2.symm⟩
              · cases h

theorem store_counts (doci : DocInfo) (loc : fz_location) (pg : Page) :
    (store doci loc pg).page_count_for_chapter = doci.page_count_for_chapter := by
  unfold store
  split <;> rfl

theorem store_pages_other (doci : DocInfo) (loc : fz_location) (pg : Page) (c : Int)
    (hc : c ≠ loc.chapter) : idx (store doci loc pg).pages c = idx doci.pages c := by
  unfold store
  split
  · rename_i tbl htbl
    exact idx_set_ne _ _ (idx_some htbl).1 hc
  · rfl

theorem load_page_fill_frame {fz : Env} {doci d' : DocInfo} {L : fz_location}
    {tr0 tr : List Event}
    (h : load_page_fill fz doci L tr0 = Outcome.returned tr d' ∨
      load_page_fill fz doci L tr0 = Outcome.thrown tr d') :
    d'.location = doci.location ∧ same_elsewhere L.chapter doci d' := by
  rcases load_page_fill_state h with rfl | ⟨pg, rfl⟩
  · exact ⟨rfl, fun c _ => ⟨rfl, rfl⟩⟩
  · refine ⟨store_location _ _ _, fun c hc => ⟨store_pages_other _ _ _ c hc, ?_⟩⟩
    rw [store_counts]

theorem load_page_frame {fz : Env} {doci d' : DocInfo} {L : fz_location} {tr : List Event}
    (h : load_page fz doci L = Outcome.returned tr d' ∨
      load_page fz doci L = Outcome.thrown tr d') :
    d'.location = L ∧ same_elsewhere L.chapter doci d' := by
  unfold load_page at h
  simp only at h
  split at h
  · rcases h with h | h <;> cases h
  · rename_i hnone
    split at h
    · rcases h with h | h
      · cases h
      · injection h with _ h2
        subst h2
        exact ⟨rfl, fun c _ => ⟨rfl, rfl⟩⟩
    · split at h
      · rcases h with h | h <;> cases h
      · rename_i counts hcounts
        split at h
        · rcases h with h | h <;> cases h
        · obtain ⟨h1, h2⟩ := load_page_fill_frame h
          refine ⟨h1, fun c hc => ?_⟩
          obtain ⟨h3, h4⟩ := h2 c hc
          obtain ⟨hc0, _, hset⟩ := upd_some hcounts
          constructor
          · rw [h3]
            exact idx_set_ne _ _ hc0 hc
          · rw [h4]
            simp only [hset]
            exact idx_set_ne _ _ hc0 hc
  · split at h
    · rcases h with h | h <;> cases h
    · obtain ⟨h1, h2⟩ := load_page_fill_frame h
      refine ⟨by rw [h1, store_location], fun c hc => ?_⟩
      obtain ⟨h3, h4⟩ := h2 c hc
      constructor
      · rw [h3]
        exact store_pages_other _ _ _ c hc
      · rw [h4, store_counts]

/-! ## The state `load_page` hands to its load sequence -/

theorem idx_replicate_some {α : Type} {n i : Int} {z v : α}
    (h : idx (List.replicate n.toNat z) i = some v) : v = z := by
  obtain ⟨_, _, h3⟩ := idx_some h
  obtain ⟨_, h4⟩ := List.getElem?_eq_some_iff.mp h3
  rw [← h4]
  simp

theorem load_page_fresh {fz : Env} {doci : DocInfo} {L : fz_location} {n m : Int}
    {counts : List Int} (hnone : idx doci.pages L.chapter = some none)
    (hcnt : fz.count_chapter_pages doci.doc L.chapter = some n)
    (hcounts : upd doci.page_count_for_chapter L.chapter n = some counts)
    (hm : idx counts L.chapter = some m) :
    load_page fz doci L = load_page_fill fz
      { doci with
        location := L
        page_count_for_chapter := counts
        pages := doci.pages.set L.chapter.toNat (calloc fz m Page.zero) } L [] := by
  unfold load_page
  simp only [hnone, hcnt, hcounts, hm]

theorem load_page_allocated {fz : Env} {doci : DocInfo} {L : fz_location}
    {tbl : List Page} {held : Page} (htbl : idx doci.pages L.chapter = some (some tbl))
    (hheld : idx tbl L.page = some held) :
    load_page fz doci L = load_page_fill fz
      (store { doci with location := L } L Page.zero) L
      (Event.drop_page L.chapter L.page :: (drop_page held).1) := by
  unfold load_page
  simp only [htbl, hheld]
  rfl

theorem load_page_prepared {fz : Env} {doci d' : DocInfo} {L : fz_location}
    {tr : List Event}
    (h : load_page fz doci L = Outcome.returned tr d' ∨
      load_page fz doci L = Outcome.thrown tr d') :
    (idx doci.pages L.chapter = some none ∧
      fz.count_chapter_pages doci.doc L.chapter = none ∧
      tr = [] ∧ d' = { doci with location := L }) ∨
    ∃ d1 tr0,
      load_page fz doci L = load_page_fill fz d1 L tr0 ∧
      d1.doc = doci.doc ∧ d1.location = L ∧
      (∀ pg0, slot d1 L = some pg0 → pg0 = Page.zero) ∧
      ((idx doci.pages L.chapter = some none ∧ tr0 = []) ∨
        ∃ tbl held, idx doci.pages L.chapter = some (some tbl) ∧
          idx tbl L.page = some held ∧
          tr0 = Event.drop_page L.chapter L.page :: (drop_page held).1) := by
  unfold load_page at h
  simp only at h
  split at h
  · rcases h with h | h <;> cases h
  · rename_i hnone
    split at h
    · rename_i hcnt
      rcases h with h | h
      · cases h
      · injection h with h1 h2
        exact Or.inl ⟨hnone, hcnt, h1.symm, h2.symm⟩
    · rename_i n hcnt
      split at h
      · rcases h with h | h <;> cases h
      · rename_i counts hcounts
        split at h
        · rcases h with h | h <;> cases h
        · rename_i m hm
          refine Or.inr ⟨_, [], load_page_fresh hnone hcnt hcounts hm, ?_, ?_, ?_,
            Or.inl ⟨hnone, rfl⟩⟩
          · rfl
          · rfl
          · intro pg0 hpg0
            unfold slot at hpg0
            simp only at hpg0
            rw [idx_set_self _ hnone] at hpg0
            cases hca : calloc fz m Page.zero with
            | none => rw [hca] at hpg0; cases hpg0
            | some tbl =>
              rw [hca] at hpg0
              simp only at hpg0
              rw [(calloc_some hca).2] at hpg0
              exact idx_replicate_some hpg0
  · rename_i tbl htbl
    split at h
    · rcases h with h | h <;> cases h
    · rename_i held hheld
      refine Or.inr ⟨_, _, load_page_allocated htbl hheld, ?_, ?_, ?_,
        Or.inr ⟨tbl, held, htbl, hheld, rfl⟩⟩
      · unfold store; split <;> rfl
      · rw [store_location]
      · intro pg0 hpg0
        have hs : slot { doci with location := L } L = some held := by
          unfold slot
          simp only [htbl]
          exact hheld
        rw [slot_store _ hs] at hpg0
        exact (Option.some.inj hpg0).symm

/-! ## A load sequence that is left by an `fz_throw` -/

theorem load_page_fill_thrown {fz : Env} {doci d' : DocInfo} {L : fz_location}
    {tr0 tr : List Event} (h : load_page_fill fz doci L tr0 = Outcome.thrown tr d') :
    (fz.load_chapter_page doci.doc L.chapter L.page = none ∧ d' = doci ∧ tr = tr0) ∨
    ∃ p pg0 pg,
      fz.load_chapter_page doci.doc L.chapter L.page = some p ∧
      slot doci L = some pg0 ∧ d' = store doci L pg ∧
      tr = tr0 ++ [Event.fz_load_chapter_page L.chapter L.page] ∧
      pg.page = p ∧ pg.display_list = pg0.display_list ∧
      (fz.new_stext_page_from_page p = none →
        pg.page_text = pg0.page_text ∧ pg.seps = pg0.seps ∧ pg.links = pg0.links) ∧
      (∀ text, fz.new_stext_page_from_page p = some text →
        pg.page_text = text ∧ pg.seps = 0 ∧
        (fz.load_links p = none → pg.links = pg0.links) ∧
        (∀ l, fz.load_links p = some l → pg.links = l)) := by
  unfold load_page_fill at h
  split at h
  · rename_i hp
    injection h with h1 h2
    exact Or.inl ⟨hp, h2.symm, h1.symm⟩
  · rename_i p hp
    split at h
    · cases h
    · rename_i pg0 hpg0
      simp only at h
      split at h
      · rename_i htext
        injection h with h1 h2
        refine Or.inr ⟨p, pg0, _, hp, hpg0, h2.symm, h1.symm, rfl, rfl, ?_, ?_⟩
        · intro _
          exact ⟨rfl, rfl, rfl⟩
        · intro text ht
          rw [htext] at ht
          cases ht
      · rename_i text htext
        split at h
        · rename_i hlinks
          injection h with h1 h2
          refine Or.inr ⟨p, pg0, _, hp, hpg0, h2.symm, h1.symm, rfl, rfl, ?_, ?_⟩
          · intro hn
            rw [htext] at hn
            cases hn
          · intro text' ht
            rw [htext] at ht
            cases ht
            refine ⟨rfl, rfl, fun _ => rfl, ?_⟩
            intro l hl
            rw [hlinks] at hl
            cases hl
        · rename_i links hlinks
          split at h
          · injection h with h1 h2
            refine Or.inr ⟨p, pg0, _, hp, hpg0, h2.symm, h1.symm, rfl, rfl, ?_, ?_⟩
            · intro hn
              rw [htext] at hn
              cases hn
            · intro text' ht
              rw [htext] at ht
              cases ht
              refine ⟨rfl, rfl, ?_, ?_⟩
              · intro hl
                rw [hlinks] at hl
                cases hl
              · intro l hl
                rw [hlinks] at hl
                cases hl
                rfl
          · split at h
            · injection h with h1 h2
              refine Or.inr ⟨p, pg0, _, hp, hpg0, h2.symm, h1.symm, rfl, rfl, ?_, ?_⟩
              · intro hn
                rw [htext] at hn
                cases hn
              · intro text' ht
                rw [htext] at ht
                cases ht
                refine ⟨rfl, rfl, ?_, ?_⟩
                · intro hl
                  rw [hlinks] at hl
                  cases hl
                · intro l hl
                  rw [hlinks] at hl
                  cases hl
                  rfl
            · cases h

theorem load_page_fill_trace {fz : Env} {doci d' : DocInfo} {L : fz_location}
    {tr0 tr : List Event}
    (h : load_page_fill fz doci L tr0 = Outcome.returned tr d' ∨
      load_page_fill fz doci L tr0 = Outcome.thrown tr d') :
    (fz.load_chapter_page doci.doc L.chapter L.page = none ∧ tr = tr0) ∨
    (∃ p, fz.load_chapter_page doci.doc L.chapter L.page = some p) ∧
      tr = tr0 ++ [Event.fz_load_chapter_page L.chapter L.page] := by
  rcases h with h | h
  · obtain ⟨_, p, _, _, _, _, _, hp, _, _, _, _, htr, _⟩ := load_page_fill_returned h
    exact Or.inr ⟨⟨p, hp⟩, htr⟩
  · rcases load_page_fill_thrown h with ⟨hp, _, htr⟩ | ⟨p, _, _, hp, _, _, htr, _⟩
    · exact Or.inl ⟨hp, htr⟩
    · exact Or.inr ⟨⟨p, hp⟩, htr⟩

theorem calloc_replicate_idx {α : Type} {fz : Env} {N c : Int} {z : α} {xs : List α}
    (h : calloc fz N z = some xs) (h0 : 0 ≤ c) (hc : c < N) : idx xs c = some z := by
  obtain ⟨_, rfl⟩ := calloc_some h
  unfold idx
  rw [if_pos h0]
  have : c.toNat < N.toNat := by omega
  simp [List.getElem?_replicate, this]

theorem load_pages_frame {fz : Env} (c : Int) (Ls : List fz_location) :
    ∀ {doci d' : DocInfo} {tr : List Event},
      (load_pages fz doci Ls = Outcome.returned tr d' ∨
        load_pages fz doci Ls = Outcome.thrown tr d') →
      (∀ L ∈ Ls, L.chapter ≠ c) →
      idx d'.pages c = idx doci.pages c ∧
        idx d'.page_count_for_chapter c = idx doci.page_count_for_chapter c := by
  induction Ls with
  | nil =>
    intro doci d' tr h _
    unfold load_pages at h
    rcases h with h | h
    · injection h with _ h2
      subst h2
      exact ⟨rfl, rfl⟩
    · cases h
  | cons L rest ih =>
    intro doci d' tr h hne
    have hL : c ≠ L.chapter := fun e => hne L (List.mem_cons_self _ _) e.symm
    have hrest : ∀ L' ∈ rest, L'.chapter ≠ c :=
      fun L' hm => hne L' (List.mem_cons_of_mem _ hm)
    unfold load_pages at h
    cases h1 : load_page fz doci L with
    | undefined =>
      rw [h1] at h
      rcases h with h | h <;> cases h
    | thrown tr1 d1 =>
      rw [h1] at h
      rcases h with h | h
      · cases h
      · injection h with _ h2
        subst h2
        exact (load_page_frame (Or.inr h1)).2 c hL
    | returned tr1 d1 =>
      rw [h1] at h
      simp only at h
      have hf := (load_page_frame (Or.inl h1)).2 c hL
      cases h2 : load_pages fz d1 rest with
      | undefined =>
        rw [h2] at h
        rcases h with h | h <;> cases h
      | thrown tr2 d2 =>
        rw [h2] at h
        rcases h with h | h
        · cases h
        · injection h with _ h3
          subst h3
          obtain ⟨i1, i2⟩ := ih (Or.inr h2) hrest
          exact ⟨i1.trans hf.1, i2.trans hf.2⟩
      | returned tr2 d2 =>
        rw [h2] at h
        rcases h with h | h
        · injection h with _ h3
          subst h3
          obtain ⟨i1, i2⟩ := ih (Or.inl h2) hrest
          exact ⟨i1.trans hf.1, i2.trans hf.2⟩
        · cases h

theorem load_doc_ready {hdr : Header} {fz : Env} {filename : String}
    {accel_filename : Option String} {d0 : DocInfo}
    (h : load_doc hdr fz filename accel_filename = Opened.ready d0) :
    ∃ N, fz.count_chapters d0.doc = some N ∧ d0.chapter_count = N ∧
      calloc fz N (none : Option (List Page)) = some d0.pages ∧
      calloc fz N (0 : Int) = some d0.page_count_for_chapter ∧
      d0.location = ⟨0, 0⟩ ∧ d0.zoom = 100 ∧ d0.rotate = 0 := by
  unfold load_doc at h
  split at h
  · cases h
  · simp only at h
    split at h
    · cases h
    · split at h
      · cases h
      · split at h
        · cases h
        · rename_i N hN
          split at h
          · cases h
          · rename_i pages hpages
            split at h
            · cases h
            · rename_i counts hcounts
              injection h with h
              subst h
              exact ⟨N, hN, rfl, hpages, hcounts, rfl, rfl, rfl⟩

/-! ## Counting loads and `drop_page` runs over a sequence of calls -/

theorem slot_some_allocated {doci : DocInfo} {L : fz_location} {pg : Page}
    (h : slot doci L = some pg) : ∃ tbl, idx doci.pages L.chapter = some (some tbl) := by
  unfold slot at h
  split at h
  · rename_i tbl htbl
    exact ⟨tbl, htbl⟩
  · cases h

theorem load_page_returned_allocated {fz : Env} {doci d' : DocInfo} {L : fz_location}
    {tr : List Event} (h : load_page fz doci L = Outcome.returned tr d') :
    ∃ tbl, idx d'.pages L.chapter = some (some tbl) := by
  obtain ⟨d1, tr0, _, _, _, _, hfill⟩ := load_page_returned_fill h
  obtain ⟨pg0, p, text, links, bounds, dl, hslot, _, _, _, _, _, _, hd'⟩ :=
    load_page_fill_returned hfill
  have hs := slot_store (loaded_page fz d1 p text links bounds dl) hslot
  rw [← hd'] at hs
  exact slot_some_allocated hs

theorem load_page_returned_trace {fz : Env} {doci d' : DocInfo} {L : fz_location}
    {tr : List Event} (h : load_page fz doci L = Outcome.returned tr d') :
    (idx doci.pages L.chapter = some none ∧
      tr = [Event.fz_load_chapter_page L.chapter L.page]) ∨
    ∃ tbl held, idx doci.pages L.chapter = some (some tbl) ∧ idx tbl L.page = some held ∧
      tr = Event.drop_page L.chapter L.page :: (drop_page held).1 ++
        [Event.fz_load_chapter_page L.chapter L.page] := by
  rcases load_page_prepared (Or.inl h) with ⟨_, _, _, hd'⟩ | ⟨d1, tr0, heq, _, _, _, hcase⟩
  · unfold load_page at h
    rename_i h1 h2 h3
    simp only [h1, h2] at h
    cases h
  · rw [heq] at h
    obtain ⟨_, _, _, _, _, _, _, _, _, _, _, _, htr, _⟩ := load_page_fill_returned h
    rcases hcase with ⟨hnone, htr0⟩ | ⟨tbl, held, htbl, hheld, htr0⟩
    · subst htr0
      exact Or.inl ⟨hnone, by simpa using htr⟩
    · subst htr0
      exact Or.inr ⟨tbl, held, htbl, hheld, htr⟩

theorem fz_location_eq_iff (L s : fz_location) :
    L = s ↔ L.chapter = s.chapter ∧ L.page = s.page := by
  constructor
  · rintro rfl
    exact ⟨rfl, rfl⟩
  · rintro ⟨h1, h2⟩
    cases L
    cases s
    simp only at h1 h2
    rw [h1, h2]

theorem load_page_returned_counts {fz : Env} {doci d' : DocInfo} {L : fz_location}
    {tr : List Event} (s : fz_location)
    (h : load_page fz doci L = Outcome.returned tr d') :
    load_calls s tr = (if L = s then 1 else 0) ∧
    drop_runs s tr =
      (if L = s ∧ idx doci.pages L.chapter ≠ some none then 1 else 0) := by
  rcases load_page_returned_trace h with ⟨hnone, rfl⟩ | ⟨tbl, held, htbl, _, rfl⟩
  · unfold load_calls drop_runs
    by_cases hL : L = s
    · subst hL
      simp [hnone]
    · have hne : ¬ (L.chapter = s.chapter ∧ L.page = s.page) :=
        fun e => hL ((fz_location_eq_iff L s).mpr e)
      simp [List.count_cons, hL, hne]
  · unfold load_calls drop_runs drop_page
    by_cases hL : L = s
    · subst hL
      simp [List.count_cons, htbl]
    · have hne : ¬ (L.chapter = s.chapter ∧ L.page = s.page) :=
        fun e => hL ((fz_location_eq_iff L s).mpr e)
      simp [List.count_cons, hL, hne]

theorem load_pages_counts {fz : Env} (s : fz_location) (Ls : List fz_location) :
    ∀ {doci d' : DocInfo} {tr : List Event},
      load_pages fz doci Ls = Outcome.returned tr d' →
      load_calls s tr = Ls.count s ∧
        drop_runs s tr + table_allocations doci Ls s = Ls.count s := by
  induction Ls with
  | nil =>
    intro doci d' tr h
    unfold load_pages at h
    injection h with h1 _
    subst h1
    simp [load_calls, drop_runs, table_allocations]
  | cons L rest ih =>
    intro doci d' tr h
    unfold load_pages at h
    cases h1 : load_page fz doci L with
    | undefined => rw [h1] at h; cases h
    | thrown tr1 d1 => rw [h1] at h; cases h
    | returned tr1 d1 =>
      rw [h1] at h
      simp only at h
      cases h2 : load_pages fz d1 rest with
      | undefined => rw [h2] at h; cases h
      | thrown tr2 d2 => rw [h2] at h; cases h
      | returned tr2 d2 =>
        rw [h2] at h
        injection h with h3 _
        subst h3
        obtain ⟨ihl, ihd⟩ := ih h2
        obtain ⟨hl, hd⟩ := load_page_returned_counts s h1
        obtain ⟨tbl1, halloc⟩ := load_page_returned_allocated h1
        have hlc : load_calls s (tr1 ++ tr2) = load_calls s tr1 + load_calls s tr2 := by
          unfold load_calls
          rw [List.count_append]
        have hdr : drop_runs s (tr1 ++ tr2) = drop_runs s tr1 + drop_runs s tr2 := by
          unfold drop_runs
          rw [List.count_append]
        have hcount : (L :: rest).count s = rest.count s + (if L = s then 1 else 0) := by
          rw [List.count_cons]
          simp
        refine ⟨by rw [hlc, hl, ihl, hcount]; omega, ?_⟩
        rw [hdr, hd, hcount, ← ihd]
        by_cases hch : L.chapter = s.chapter
        · -- the call names the chapter of `s`: its table is allocated afterwards
          have ht1 : table_allocations d1 rest s = 0 := by
            unfold table_allocations
            rw [← hch, halloc]
            simp
          rw [ht1]
          by_cases hL : L = s
          · subst hL
            unfold table_allocations
            by_cases hn : idx doci.pages L.chapter = some none
            · simp [hn]
            · simp [hn]
              omega
          · have hfind : (L :: rest).find? (fun L' => decide (L'.chapter = s.chapter)) =
                some L := by
              simp [List.find?_cons, hch]
            unfold table_allocations
            rw [hfind]
            have : ¬ (some L = some s) := fun e => hL (Option.some.inj e)
            simp [hL, this]
        · -- the call names another chapter: nothing of the chapter of `s` changes
          have hL : ¬ L = s := fun e => hch (by rw [e])
          have hsame := (load_page_frame (Or.inl h1)).2 s.chapter (fun e => hch e.symm)
          have hfind : (L :: rest).find? (fun L' => decide (L'.chapter = s.chapter)) =
              rest.find? (fun L' => decide (L'.chapter = s.chapter)) := by
            simp [List.find?_cons, hch]
          unfold table_allocations
          rw [hfind, hsame.1]
          simp [hL]

/-! ## MuPDF's page transform at rotation 0 -/

/-- C1: when `load_page doci L` returns, the document's location is exactly
`L`, the record the draw callback looks up at `pages[location.chapter][location.page]`
is the one this call filled from the engine's content for `L` (with the matrix
computed from its bounds and the document's zoom and rotation), and a
`draw_callback` on that document returns having run that page with that matrix. -/
theorem load_page_returned_active_page (fz : Env) (doci d' : DocInfo) (L : fz_location)
    (tr : List Event) (h : load_page fz doci L = Outcome.returned tr d') :
    d'.location = L ∧
    ∃ p text links bounds dl,
      fz.load_chapter_page doci.doc L.chapter L.page = some p ∧
      fz.bound_page p = some bounds ∧
      active_page d' = some (loaded_page fz doci p text links bounds dl) ∧
      ∀ (c : Client) (s : Surface) (pixmap dev : Ptr),
        c.doci = d' → c.image_surf = some s →
        fz.new_pixmap_with_bbox_and_data d'.colorspace s.width s.height s.data = some pixmap →
        fz.new_draw_device pixmap = some dev →
        fz.run_page p dev (fz.transform_page bounds doci.zoom doci.rotate) = true →
        fz.close_device dev = true →
        ∃ tr' c', draw_callback fz c = Outcome.returned tr' c' ∧
          Event.fz_run_page p (fz.transform_page bounds doci.zoom doci.rotate) ∈ tr' := by
  obtain ⟨d1, tr0, hloc, hdoc, hzoom, hrot, hfill⟩ := load_page_returned_fill h
  obtain ⟨pg0, p, text, links, bounds, dl, hslot, hp, _, _, hb, _, _, hd'⟩ :=
    load_page_fill_returned hfill
  have hloc' : d'.location = L := by rw [hd', store_location, hloc]
  have hact : active_page d' = some (loaded_page fz doci p text links bounds dl) := by
    unfold active_page
    rw [hloc', hd', slot_store _ hslot]
    simp [loaded_page, hzoom, hrot]
  refine ⟨hloc', p, text, links, bounds, dl, hdoc ▸ hp, hb, hact, ?_⟩
  intro c s pixmap dev hc hs hpix hdev hrun hclose
  subst hc
  unfold draw_callback
  simp only [hs, hpix, hdev, hact, loaded_page, hrun, hclose, if_true]
  split
  · exact ⟨_, _, rfl, by simp⟩
  · exact ⟨_, _, rfl, by simp⟩

/-- C1, at a concrete input: the load of chapter 0, page 1 on the fresh two-chapter document. -/
theorem load_page_returned_active_page_witness :
    load_page demo_env demo_doc ⟨0, 1⟩ =
      Outcome.returned [Event.fz_load_chapter_page 0 1] demo_doc_0_1 ∧
    demo_doc_0_1.location = ⟨0, 1⟩ ∧
    active_page demo_doc_0_1 = some (demo_page 101) :=
  ⟨rfl, (load_page_returned_active_page demo_env demo_doc demo_doc_0_1 ⟨0, 1⟩ _ rfl).1, rfl⟩

/-- C2 (as stated, refuted): on the 2-chapter document the call at chapter 2,
page 0 does not end in a failure; it reads `pages[2]` past the chapter table. -/
theorem load_page_chapter_2_not_a_failure :
    demo_doc.chapter_count = 2 ∧
    load_page demo_env demo_doc ⟨2, 0⟩ = Outcome.undefined ∧
    ¬ ∃ tr d', load_page demo_env demo_doc ⟨2, 0⟩ = Outcome.thrown tr d' := by
  refine ⟨rfl, rfl, ?_⟩
  rintro ⟨tr, d', h⟩
  have h2 : load_page demo_env demo_doc ⟨2, 0⟩ = Outcome.undefined := rfl
  rw [h2] at h
  cases h

/-- C2 (amended): `load_page` makes no chapter range check.  On a document whose
chapter table has `chapter_count` entries, a location whose chapter is at least
`chapter_count` makes the lookup `doci->pages[location.chapter]` read past the
table: the call has no defined outcome, whatever the engine does. -/
theorem load_page_chapter_beyond_table (fz : Env) (doci : DocInfo) (L : fz_location)
    (hinv : (doci.pages.length : Int) = doci.chapter_count)
    (h : doci.chapter_count ≤ L.chapter) :
    load_page fz doci L = Outcome.undefined := by
  unfold load_page
  simp only
  rw [idx_none_of_length_le doci.pages L.chapter (by omega)]

/-- C2 (amended), at a concrete input: chapter 3 of the two-chapter document. -/
theorem load_page_chapter_beyond_table_witness :
    load_page demo_env demo_doc_0_1 ⟨3, 1⟩ = Outcome.undefined :=
  load_page_chapter_beyond_table demo_env demo_doc_0_1 ⟨3, 1⟩ (by decide) (by decide)

/-- C3 (as stated, refuted): chapter 1 has an allocated table of 5 pages and the
call at chapter 1, page 5 does not end in a failure; `drop_page` is applied to
the address past the end of the table. -/
theorem load_page_page_5_not_a_failure :
    chapter_page_count demo_env demo_doc_1_0 1 = some 5 ∧
    load_page demo_env demo_doc_1_0 ⟨1, 5⟩ = Outcome.undefined ∧
    ¬ ∃ tr d', load_page demo_env demo_doc_1_0 ⟨1, 5⟩ = Outcome.thrown tr d' := by
  refine ⟨rfl, rfl, ?_⟩
  rintro ⟨tr, d', h⟩
  have h2 : load_page demo_env demo_doc_1_0 ⟨1, 5⟩ = Outcome.undefined := rfl
  rw [h2] at h
  cases h

/-- C3 (amended): `load_page` makes no page range check.  For an in-range chapter
and a page index at least that chapter's page count: when the table was already
allocated, `drop_page` is applied past its end and the call has no defined
outcome; when the table is allocated by this call, the call fails only if the
engine's `fz_load_chapter_page` throws for that index (by then the location,
the page count and the table have been written), and has no defined outcome if
the engine returns, the store going past the table. -/
theorem load_page_page_beyond_table (fz : Env) (doci : DocInfo) (L : fz_location) (n : Int)
    (hlen : doci.page_count_for_chapter.length = doci.pages.length)
    (hcnt : chapter_page_count fz doci L.chapter = some n) (h : n ≤ L.page) :
    (∀ tbl, idx doci.pages L.chapter = some (some tbl) →
      load_page fz doci L = Outcome.undefined) ∧
    (idx doci.pages L.chapter = some none →
      (∀ p, fz.load_chapter_page doci.doc L.chapter L.page = some p →
        load_page fz doci L = Outcome.undefined) ∧
      (fz.load_chapter_page doci.doc L.chapter L.page = none →
        ∃ d', load_page fz doci L = Outcome.thrown [] d' ∧ d'.location = L ∧
          idx d'.page_count_for_chapter L.chapter = some n ∧
          idx d'.pages L.chapter = some (calloc fz n Page.zero))) := by
  constructor
  · intro tbl htbl
    unfold chapter_page_count at hcnt
    rw [htbl] at hcnt
    have hn : (tbl.length : Int) = n := Option.some.inj hcnt
    unfold load_page
    simp only [htbl]
    rw [idx_none_of_length_le tbl L.page (by omega)]
  · intro hnone
    unfold chapter_page_count at hcnt
    rw [hnone] at hcnt
    simp only at hcnt
    obtain ⟨h0, hlt, _⟩ := idx_some hnone
    have hc0 : idx doci.page_count_for_chapter L.chapter =
        some (doci.page_count_for_chapter.get ⟨L.chapter.toNat, hlen ▸ hlt⟩) :=
      idx_of_lt _ _ h0 (hlen ▸ hlt)
    have hslot : slot
        { doci with
          location := L
          page_count_for_chapter := doci.page_count_for_chapter.set L.chapter.toNat n
          pages := doci.pages.set L.chapter.toNat (calloc fz n Page.zero) } L = none := by
      unfold slot
      simp only
      rw [idx_set_self _ hnone]
      cases hca : calloc fz n Page.zero with
      | none => rfl
      | some tbl =>
        simp only
        rw [(calloc_some hca).2]
        exact idx_replicate_none n L.page Page.zero h
    have hfill := load_page_fill_no_slot fz [] hslot
    have hload : load_page fz doci L = load_page_fill fz
        { doci with
          location := L
          page_count_for_chapter := doci.page_count_for_chapter.set L.chapter.toNat n
          pages := doci.pages.set L.chapter.toNat (calloc fz n Page.zero) } L [] := by
      unfold load_page
      simp only [hnone, hcnt, idx_upd_self n hc0, idx_set_self n hc0]
    constructor
    · intro p hp
      rw [hload]
      exact hfill.1 p hp
    · intro hp
      refine ⟨_, hload.trans (hfill.2 hp), rfl, ?_, ?_⟩
      · exact idx_set_self n hc0
      · exact idx_set_self _ hnone

/-- C3 (amended), at a concrete input: page 3 of the allocated 3-page chapter 0. -/
theorem load_page_page_beyond_table_witness :
    load_page demo_env demo_doc_0_1 ⟨0, 3⟩ = Outcome.undefined :=
  (load_page_page_beyond_table demo_env demo_doc_0_1 ⟨0, 3⟩ 3 (by decide) (by decide)
    (by decide)).1 _ rfl

/-- C4 (as stated, refuted): a `load_page` at the in-range location chapter 1,
page 2 that fails because the engine cannot build the text layer leaves the
document's location at chapter 1, page 2, not at the location it had before. -/
theorem load_page_failed_location_moved :
    load_page demo_env_no_text demo_doc ⟨1, 2⟩ =
      Outcome.thrown [Event.fz_load_chapter_page 1 2] demo_doc_1_2_thrown ∧
    demo_doc.location = ⟨0, 0⟩ ∧
    demo_doc_1_2_thrown.location ≠ demo_doc.location := by
  refine ⟨rfl, rfl, ?_⟩
  decide

/-- C4 (amended): a failed `load_page` does not restore the location.  The
location is assigned on entry, so for every document and every location `L`,
when `load_page` is left by an engine failure the document's location is `L`;
the table entries and page counts of the chapters other than `L`'s are as
before the call. -/
theorem load_page_thrown_location (fz : Env) (doci d' : DocInfo) (L : fz_location)
    (tr : List Event) (h : load_page fz doci L = Outcome.thrown tr d') :
    d'.location = L ∧ same_elsewhere L.chapter doci d' :=
  load_page_frame (Or.inr h)

/-- C4 (amended), at a concrete input: the engine throws for chapter 1, page 7. -/
theorem load_page_thrown_location_witness :
    load_page demo_env demo_doc ⟨1, 7⟩ =
      Outcome.thrown []
        { demo_doc with
          location := ⟨1, 7⟩
          pages := [none, some (List.replicate 5 Page.zero)]
          page_count_for_chapter := [0, 5] } ∧
    ({ demo_doc with
          location := ⟨1, 7⟩
          pages := [none, some (List.replicate 5 Page.zero)]
          page_count_for_chapter := [0, 5] } : DocInfo).location = ⟨1, 7⟩ :=
  ⟨rfl, (load_page_thrown_location demo_env demo_doc _ ⟨1, 7⟩ [] rfl).1⟩

/-- C5 (as stated, refuted): reloading the occupied slot chapter 0, page 1 with
an engine whose text-layer call throws leaves in the slot a record that holds
the new content handle and no text layer: it is neither empty nor the record
the slot held before the call. -/
theorem load_page_failed_slot_half_filled :
    load_page demo_env_no_text demo_doc_0_1 ⟨0, 1⟩ =
      Outcome.thrown
        (Event.drop_page 0 1 :: (drop_page (demo_page 101)).1 ++
          [Event.fz_load_chapter_page 0 1])
        demo_doc_0_1_thrown ∧
    slot demo_doc_0_1 ⟨0, 1⟩ = some (demo_page 101) ∧
    slot demo_doc_0_1_thrown ⟨0, 1⟩ = some { Page.zero with page := 101 } ∧
    ¬ ({ Page.zero with page := 101 } : Page).handles_absent ∧
    ({ Page.zero with page := 101 } : Page) ≠ demo_page 101 := by
  refine ⟨rfl, rfl, rfl, ?_, ?_⟩
  · unfold Page.handles_absent
    decide
  · decide

/-- C5 (amended): `load_page` undoes nothing when an engine call throws.  If the
call that throws is the first one, loading the page content, the target slot is
left fully empty.  If it is a later one, the slot holds the content handle just
loaded and every handle stored before the throwing call, while the handles of
the calls not reached (the display list always among them) are absent. -/
theorem load_page_thrown_slot (fz : Env) (doci d' : DocInfo) (L : fz_location)
    (tr : List Event) (pg : Page)
    (h : load_page fz doci L = Outcome.thrown tr d') (hs : slot d' L = some pg) :
    (fz.load_chapter_page doci.doc L.chapter L.page = none ∧ pg = Page.zero) ∨
    ∃ p, fz.load_chapter_page doci.doc L.chapter L.page = some p ∧
      pg.page = p ∧ pg.seps = 0 ∧ pg.display_list = 0 ∧
      (fz.new_stext_page_from_page p = none → pg.page_text = 0 ∧ pg.links = 0) ∧
      (∀ text, fz.new_stext_page_from_page p = some text →
        pg.page_text = text ∧
        (fz.load_links p = none → pg.links = 0) ∧
        (∀ l, fz.load_links p = some l → pg.links = l)) := by
  rcases load_page_prepared (Or.inr h) with ⟨hnone, _, _, hd'⟩ | ⟨d1, tr0, heq, hdoc, _, hzero, _⟩
  · subst hd'
    unfold slot at hs
    simp only [hnone] at hs
    cases hs
  · rw [heq] at h
    rcases load_page_fill_thrown h with ⟨hp, hd', _⟩ | ⟨p, pg0, pg1, hp, hpg0, hd', _, h1, h2, h3, h4⟩
    · subst hd'
      exact Or.inl ⟨hdoc ▸ hp, hzero pg hs⟩
    · have hz := hzero pg0 hpg0
      subst hz
      rw [hd', slot_store _ hpg0] at hs
      cases hs
      refine Or.inr ⟨p, hdoc ▸ hp, h1, ?_, h2, ?_, ?_⟩
      · cases ht : fz.new_stext_page_from_page p with
        | none => exact (h3 ht).2.1
        | some text => exact (h4 text ht).2.1
      · intro ht
        exact ⟨(h3 ht).1, (h3 ht).2.2⟩
      · intro text ht
        exact ⟨(h4 text ht).1, (h4 text ht).2.2.1, (h4 text ht).2.2.2⟩

/-- C5 (amended), at a concrete input: the text layer throws on chapter 0, page 2. -/
theorem load_page_thrown_slot_witness :
    load_page demo_env_no_text demo_doc_0_1 ⟨0, 2⟩ =
      Outcome.thrown
        (Event.drop_page 0 2 :: (drop_page Page.zero).1 ++ [Event.fz_load_chapter_page 0 2])
        { demo_doc_0_1 with
          location := ⟨0, 2⟩
          pages := [some [Page.zero, demo_page 101, { Page.zero with page := 102 }], none] } ∧
    ∃ p, demo_env_no_text.load_chapter_page demo_doc_0_1.doc 0 2 = some p ∧
      ({ Page.zero with page := 102 } : Page).page = p :=
  ⟨rfl,
   (load_page_thrown_slot demo_env_no_text demo_doc_0_1 _ ⟨0, 2⟩ _
      { Page.zero with page := 102 } rfl rfl).elim
     (fun hz => absurd hz.1 (by decide))
     (fun ⟨p, hp, h1, _⟩ => ⟨p, hp, h1⟩)⟩

/-- C6 (the code at the failing input): after a load of chapter 0, page 1 has
allocated chapter 0's table, the first load of the empty slot chapter 0, page 2
runs `drop_page` on it before loading, where the claim has no release on an
empty slot: one load of that slot, one `drop_page` run on it.  The five drop
calls of that run each receive `NULL`, so no handle is released by it. -/
theorem load_page_drops_empty_slot :
    load_page demo_env demo_doc ⟨0, 1⟩ =
      Outcome.returned [Event.fz_load_chapter_page 0 1] demo_doc_0_1 ∧
    slot demo_doc_0_1 ⟨0, 2⟩ = some Page.zero ∧
    load_page demo_env demo_doc_0_1 ⟨0, 2⟩ =
      Outcome.returned
        [Event.drop_page 0 2,
         Event.fz_drop_stext_page 0, Event.fz_drop_separations 0, Event.fz_drop_link 0,
         Event.fz_drop_page 0, Event.fz_drop_display_list 0,
         Event.fz_load_chapter_page 0 2]
        demo_doc_0_2 ∧
    load_pages demo_env demo_doc [⟨0, 1⟩, ⟨0, 2⟩] =
      Outcome.returned
        [Event.fz_load_chapter_page 0 1,
         Event.drop_page 0 2,
         Event.fz_drop_stext_page 0, Event.fz_drop_separations 0, Event.fz_drop_link 0,
         Event.fz_drop_page 0, Event.fz_drop_display_list 0,
         Event.fz_load_chapter_page 0 2]
        demo_doc_0_2 ∧
    load_calls ⟨0, 2⟩
        [Event.fz_load_chapter_page 0 1,
         Event.drop_page 0 2,
         Event.fz_drop_stext_page 0, Event.fz_drop_separations 0, Event.fz_drop_link 0,
         Event.fz_drop_page 0, Event.fz_drop_display_list 0,
         Event.fz_load_chapter_page 0 2] = 1 ∧
    drop_runs ⟨0, 2⟩
        [Event.fz_load_chapter_page 0 1,
         Event.drop_page 0 2,
         Event.fz_drop_stext_page 0, Event.fz_drop_separations 0, Event.fz_drop_link 0,
         Event.fz_drop_page 0, Event.fz_drop_display_list 0,
         Event.fz_load_chapter_page 0 2] = 1 := by
  refine ⟨rfl, rfl, rfl, rfl, ?_, ?_⟩ <;> decide

/-- The `drop_page` runs of `load_page` as the code stands (the guard on line 158
being always true).  In every call that returns or fails, `drop_page` runs on the
target slot exactly when the chapter's table was already allocated when the call
began; it runs before `fz_load_chapter_page` and hands the five handles the slot
held to the five drop calls, so that an occupied slot has its prior occupant
released and an empty one has nothing released; a call that allocates the table
makes no drop call.  Over every returning sequence of calls, for each slot the
number of `drop_page` runs is the number of loads of the slot, less one exactly
when it was a load of this slot that allocated the chapter's table. -/
theorem load_page_drop_calls (fz : Env) (doci : DocInfo) :
    (∀ (L : fz_location) (tr : List Event) (d' : DocInfo),
      (load_page fz doci L = Outcome.returned tr d' ∨
        load_page fz doci L = Outcome.thrown tr d') →
      ∃ loads, (loads = [] ∨ loads = [Event.fz_load_chapter_page L.chapter L.page]) ∧
        ((idx doci.pages L.chapter = some none ∧ tr = loads) ∨
          ∃ tbl held, idx doci.pages L.chapter = some (some tbl) ∧
            idx tbl L.page = some held ∧
            tr = [Event.drop_page L.chapter L.page,
                  Event.fz_drop_stext_page held.page_text,
                  Event.fz_drop_separations held.seps,
                  Event.fz_drop_link held.links,
                  Event.fz_drop_page held.page,
                  Event.fz_drop_display_list held.display_list] ++ loads)) ∧
    (∀ (Ls : List fz_location) (tr : List Event) (d' : DocInfo) (s : fz_location),
      load_pages fz doci Ls = Outcome.returned tr d' →
      load_calls s tr = Ls.count s ∧
        drop_runs s tr + table_allocations doci Ls s = Ls.count s) := by
  refine ⟨?_, fun Ls tr d' s h => load_pages_counts s Ls h⟩
  intro L tr d' h
  rcases load_page_prepared h with ⟨hnone, _, htr, _⟩ | ⟨d1, tr0, heq, _, _, _, hcase⟩
  · exact ⟨[], Or.inl rfl, Or.inl ⟨hnone, htr⟩⟩
  · rw [heq] at h
    have ht := load_page_fill_trace h
    rcases hcase with ⟨hnone, htr0⟩ | ⟨tbl, held, htbl, hheld, htr0⟩
    · subst htr0
      rcases ht with ⟨_, htr⟩ | ⟨_, htr⟩
      · exact ⟨[], Or.inl rfl, Or.inl ⟨hnone, htr⟩⟩
      · exact ⟨_, Or.inr rfl, Or.inl ⟨hnone, by simpa using htr⟩⟩
    · subst htr0
      rcases ht with ⟨_, htr⟩ | ⟨_, htr⟩
      · exact ⟨[], Or.inl rfl, Or.inr ⟨tbl, held, htbl, hheld, by simpa [drop_page] using htr⟩⟩
      · exact ⟨_, Or.inr rfl, Or.inr ⟨tbl, held, htbl, hheld, by simpa [drop_page] using htr⟩⟩

/-- The `drop_page` runs at a concrete input: three loads on the fresh two-chapter
document, the slot chapter 0, page 1 loaded twice and released once, the slot
chapter 0, page 2 loaded once and released once. -/
theorem load_page_drop_calls_witness :
    load_pages demo_env demo_doc [⟨0, 1⟩, ⟨0, 2⟩, ⟨0, 1⟩] =
      Outcome.returned
        [Event.fz_load_chapter_page 0 1,
         Event.drop_page 0 2,
         Event.fz_drop_stext_page 0, Event.fz_drop_separations 0, Event.fz_drop_link 0,
         Event.fz_drop_page 0, Event.fz_drop_display_list 0,
         Event.fz_load_chapter_page 0 2,
         Event.drop_page 0 1,
         Event.fz_drop_stext_page 1101, Event.fz_drop_separations 0,
         Event.fz_drop_link 2101, Event.fz_drop_page 101, Event.fz_drop_display_list 3000,
         Event.fz_load_chapter_page 0 1]
        { demo_doc_0_2 with location := ⟨0, 1⟩ } ∧
    table_allocations demo_doc [⟨0, 1⟩, ⟨0, 2⟩, ⟨0, 1⟩] ⟨0, 1⟩ = 1 ∧
    drop_runs ⟨0, 1⟩
        [Event.fz_load_chapter_page 0 1,
         Event.drop_page 0 2,
         Event.fz_drop_stext_page 0, Event.fz_drop_separations 0, Event.fz_drop_link 0,
         Event.fz_drop_page 0, Event.fz_drop_display_list 0,
         Event.fz_load_chapter_page 0 2,
         Event.drop_page 0 1,
         Event.fz_drop_stext_page 1101, Event.fz_drop_separations 0,
         Event.fz_drop_link 2101, Event.fz_drop_page 101, Event.fz_drop_display_list 3000,
         Event.fz_load_chapter_page 0 1] +
      table_allocations demo_doc [⟨0, 1⟩, ⟨0, 2⟩, ⟨0, 1⟩] ⟨0, 1⟩ =
      List.count (⟨0, 1⟩ : fz_location) [⟨0, 1⟩, ⟨0, 2⟩, ⟨0, 1⟩] :=
  ⟨rfl, by decide,
   ((load_page_drop_calls demo_env demo_doc).2 [⟨0, 1⟩, ⟨0, 2⟩, ⟨0, 1⟩] _ _ ⟨0, 1⟩ rfl).2⟩

/-- C7: after `load_doc` succeeds on a document for which the engine reports `N`
chapters, `chapter_count` is `N` and every chapter has its page table absent and
its page count zero; and after any sequence of `load_page` calls none of which
names chapter `c`, chapter `c` still has its table absent and its count zero. -/
theorem load_doc_chapters_unset_until_named (hdr : Header) (fz : Env) (filename : String)
    (accel_filename : Option String) (d0 : DocInfo) (N : Int)
    (hdoc : load_doc hdr fz filename accel_filename = Opened.ready d0)
    (hN : fz.count_chapters d0.doc = some N) :
    d0.chapter_count = N ∧
    (∀ c, 0 ≤ c → c < N →
      idx d0.pages c = some none ∧ idx d0.page_count_for_chapter c = some 0) ∧
    ∀ (fz' : Env) (Ls : List fz_location) (tr : List Event) (d : DocInfo) (c : Int),
      (load_pages fz' d0 Ls = Outcome.returned tr d ∨
        load_pages fz' d0 Ls = Outcome.thrown tr d) →
      (∀ L ∈ Ls, L.chapter ≠ c) → 0 ≤ c → c < N →
      idx d.pages c = some none ∧ idx d.page_count_for_chapter c = some 0 := by
  obtain ⟨N', hN', hcc, hpages, hcounts, _⟩ := load_doc_ready hdoc
  rw [hN] at hN'
  cases hN'
  have hfresh : ∀ c, 0 ≤ c → c < N →
      idx d0.pages c = some none ∧ idx d0.page_count_for_chapter c = some 0 :=
    fun c h0 hc => ⟨calloc_replicate_idx hpages h0 hc, calloc_replicate_idx hcounts h0 hc⟩
  refine ⟨hcc, hfresh, ?_⟩
  intro fz' Ls tr d c h hne h0 hc
  obtain ⟨h1, h2⟩ := load_pages_frame c Ls h hne
  rw [h1, h2]
  exact hfresh c h0 hc

/-- C7, at a concrete input: two loads in chapter 0 leave chapter 1 unset. -/
theorem load_doc_chapters_unset_until_named_witness :
    load_doc ⟨256, 256⟩ demo_env "./cancel.pdf" none = Opened.ready demo_doc ∧
    demo_doc.chapter_count = 2 ∧
    load_pages demo_env demo_doc [⟨0, 1⟩, ⟨0, 2⟩] =
      Outcome.returned
        [Event.fz_load_chapter_page 0 1,
         Event.drop_page 0 2,
         Event.fz_drop_stext_page 0, Event.fz_drop_separations 0, Event.fz_drop_link 0,
         Event.fz_drop_page 0, Event.fz_drop_display_list 0,
         Event.fz_load_chapter_page 0 2]
        demo_doc_0_2 ∧
    idx demo_doc_0_2.pages 1 = some none ∧
    idx demo_doc_0_2.page_count_for_chapter 1 = some 0 :=
  have h := load_doc_chapters_unset_until_named ⟨256, 256⟩ demo_env "./cancel.pdf" none
    demo_doc 2 rfl rfl
  ⟨rfl, h.1, rfl,
   h.2.2 demo_env [⟨0, 1⟩, ⟨0, 2⟩] _ demo_doc_0_2 1 (Or.inl rfl) (by decide) (by decide)
     (by decide)⟩

/-- C10 (as stated, refuted): with a current buffer of 3 by 4, the size-allocate
handler run with 3 by 4 destroys that buffer and creates another. -/
theorem allocate_pixmap_same_size_replaces :
    demo_client.image_surf = some ⟨3, 4, 6000⟩ ∧
    (allocate_pixmap demo_env ⟨3, 4⟩ demo_client).1 =
      [Event.cairo_surface_destroy (some ⟨3, 4, 6000⟩),
       Event.cairo_image_surface_create 3 4] :=
  ⟨rfl, rfl⟩

/-- C10 (amended): the buffer is replaced on every size-allocate.  For every width
and height, whether or not the current buffer already has those dimensions,
`allocate_pixmap` releases the current buffer and then allocates one of the
requested size, which becomes the client's buffer; nothing else of the client
changes. -/
theorem allocate_pixmap_always_replaces (fz : Env) (allocation : GdkRectangle)
    (c : Client) :
    (allocate_pixmap fz allocation c).1 =
      [Event.cairo_surface_destroy c.image_surf,
       Event.cairo_image_surface_create allocation.width allocation.height] ∧
    (allocate_pixmap fz allocation c).2.image_surf =
      some (fz.image_surface_create allocation.width allocation.height) ∧
    (allocate_pixmap fz allocation c).2.doci = c.doci ∧
    (allocate_pixmap fz allocation c).2.has_mouse_event = c.has_mouse_event :=
  ⟨rfl, rfl, rfl, rfl⟩

end MupdfGtk
